import Mathlib

/-!
Verification of the photo-manager ingestion and query core

Shallow embedding of the Go repository `photo-manager`:

* `internal/exif/exif_parser.go` — `ExtractExifData`
* `internal/database/db.go` — the `Photo` model (GORM, with unique indexes on
  `Filename`, `StoredPath` and `Hash`) and `FileManager.SavePhoto`
* `internal/service/photo_service.go` — `UploadPhoto`, `GetPhotos`,
  `GetPhotosByTimeline`
* `internal/api/photo_handler.go` — only as caller context

Go `time.Time` values have nanosecond granularity.  We model an instant as a
calendar pair (year, month) together with a linear sub-month ordinal `sub`
(day/time-of-day remainder), ordered lexicographically; this is enough for
every construct the code uses (`Year()`, `Month()`, `Format("2006")`,
`Format("01")`, and `BETWEEN` over interval endpoints built from
`time.Date(y,m,1,…)` and `AddDate`).  An inclusive `BETWEEN start AND
(nextStart - 1ns)` over discrete instants is exactly the half-open test
`start ≤ t ∧ t < nextStart`, which is how we render it.
-/

namespace PhotoManager

/-- An instant: calendar year, calendar month (1–12), and a sub-month
ordinal standing for day/time-of-day/nanoseconds, ordered lexicographically. -/
structure Time where
  year : Int
  month : Nat
  sub : Nat
deriving DecidableEq, Repr

/-- Lexicographic order on instants (models the linear order on `time.Time`). -/
def timeLe (a b : Time) : Bool :=
  decide (a.year < b.year ∨ (a.year = b.year ∧
    (a.month < b.month ∨ (a.month = b.month ∧ a.sub ≤ b.sub))))

/-- Strict lexicographic order on instants. -/
def timeLt (a b : Time) : Bool :=
  decide (a.year < b.year ∨ (a.year = b.year ∧
    (a.month < b.month ∨ (a.month = b.month ∧ a.sub < b.sub))))

theorem timeLe_refl (a : Time) : timeLe a a = true := by
  simp [timeLe]

theorem timeLe_trans {a b c : Time} (h₁ : timeLe a b = true)
    (h₂ : timeLe b c = true) : timeLe a c = true := by
  simp only [timeLe, decide_eq_true_eq] at *
  omega

theorem timeLe_total (a b : Time) : timeLe a b = true ∨ timeLe b a = true := by
  simp only [timeLe, decide_eq_true_eq]
  omega

theorem timeLt_iff_not_le {a b : Time} : timeLt a b = true ↔ ¬ timeLe b a = true := by
  simp only [timeLt, timeLe, decide_eq_true_eq]
  omega

/-- The instant `time.Date(y, time.January, 1, 0,0,0,0)` — first instant of year `y`. -/
def startOfYear (y : Int) : Time := ⟨y, 1, 0⟩

/-- The instant `time.Date(y, m, 1, 0,0,0,0)` — first instant of month `m` of year `y`. -/
def startOfMonth (y : Int) (m : Nat) : Time := ⟨y, m, 0⟩

/-- The value `startDate.AddDate(0, 1, 0)` at the first of a month: the first
instant of the following month (Go normalizes month 12 + 1 to January). -/
def nextMonthStart (y : Int) (m : Nat) : Time :=
  if m = 12 then ⟨y + 1, 1, 0⟩ else ⟨y, m + 1, 0⟩

/-- The year filter of `GetPhotos`: `t BETWEEN Date(y,1,1) AND
Date(y+1,1,1) - 1ns`, i.e. `startOfYear y ≤ t < startOfYear (y+1)`. -/
def inYear (t : Time) (y : Int) : Bool :=
  timeLe (startOfYear y) t && timeLt t (startOfYear (y + 1))

/-- The month filter of `GetPhotos`: `t BETWEEN Date(y,m,1) AND
Date(y,m,1).AddDate(0,1,0) - 1ns`. -/
def inMonth (t : Time) (y : Int) (m : Nat) : Bool :=
  timeLe (startOfMonth y m) t && timeLt t (nextMonthStart y m)

/-!
Section: Data model (`internal/database/db.go`, model `Photo`)

`gorm.Model` contributes the surrogate `ID`.  `Filename`, `StoredPath` and
`Hash` each carry `gorm:"uniqueIndex;not null"`.  We keep the fields the
core reads or writes; `Width`/`Height` are always written as `0` and
`ThumbnailPath`/`Description` are never written by the pipeline, so they are
represented but inert.
-/

structure Photo where
  id : Nat
  filename : String
  storedPath : String
  uploadDate : Time
  exifDate : Option Time
  hash : String
  fileSize : Int
  mimeType : String
  tags : String
deriving DecidableEq, Repr

/-- The `organizingTimestamp` of the spec, and the `dateToUse` computation of
`GetPhotosByTimeline`: the EXIF capture instant when present, else the
upload instant. -/
def organizingTimestamp (p : Photo) : Time :=
  p.exifDate.getD p.uploadDate

/-- Catalog store state: the live rows of the `photos` table in primary-key
(insertion) order, plus the next surrogate id to assign. -/
structure DBState where
  photos : List Photo
  nextId : Nat
deriving DecidableEq, Repr

/-- The lookup `s.DB.Where("hash = ?", hash).First(&existingPhoto)`: the first (lowest
primary key) live row with the given hash, if any. -/
def dbFindByHash (db : DBState) (h : String) : Option Photo :=
  db.photos.find? (fun p => p.hash == h)

/-- The SQLite unique indexes on `filename`, `stored_path` and `hash`:
`db.Create(&photo)` fails exactly when an existing row collides on one. -/
def createConflict (db : DBState) (p : Photo) : Bool :=
  db.photos.any (fun q =>
    q.filename == p.filename || q.storedPath == p.storedPath || q.hash == p.hash)

/-!
Section: File system

The durable store: a map from path to stored content (identified by its
digest).  `os.Create` truncates, so writing to an existing path replaces
its content; `os.Remove` deletes the path.
-/

/-- File-system state: association list path ↦ content digest. -/
abbrev FS := List (String × String)

def fsWrite (path content : String) (fs : FS) : FS :=
  (path, content) :: fs.filter (fun e => ¬ e.1 == path)

def fsRemove (path : String) (fs : FS) : FS :=
  fs.filter (fun e => ¬ e.1 == path)

def fsRead (fs : FS) (path : String) : Option String :=
  (fs.find? (fun e => e.1 == path)).map (·.2)

/-!
Section: Storage placement (`FileManager.SavePhoto`)

`photoDate.Format("2006")` is the zero-padded 4-digit year and
`photoDate.Format("01")` the zero-padded 2-digit month;
`filepath.Join(base, year, month, file.Filename)` concatenates with `/`.
The stored name is the raw original `file.Filename` — no hash, no token.
-/

/-- Go `Format("01")`: two-digit zero-padded month. -/
def pad2 (n : Nat) : String :=
  if n < 10 then ("0" ++ toString n) else toString n

/-- Go `Format("2006")`: four-digit zero-padded year (years in scope are
non-negative and < 10000). -/
def pad4 (y : Int) : String :=
  if y < 10 then ("000" ++ toString y)
  else if y < 100 then ("00" ++ toString y)
  else if y < 1000 then ("0" ++ toString y)
  else toString y

/-- The path computed by `FileManager.SavePhoto`:
`filepath.Join(BaseStoragePath, year, month, file.Filename)`. -/
def savePhotoPath (base : String) (photoDate : Time) (filename : String) : String :=
  base ++ "/" ++ pad4 photoDate.year ++ "/" ++ pad2 photoDate.month ++ "/" ++ filename

/-- The operation `FileManager.SavePhoto`: writes the uploaded bytes at the resolved path
(truncating any file already there) and returns the path. -/
def savePhoto (base : String) (photoDate : Time) (filename contentHash : String)
    (fs : FS) : String × FS :=
  let path := savePhotoPath base photoDate filename
  (path, fsWrite path contentHash fs)

/-!
Section: EXIF extraction (`internal/exif/exif_parser.go`)

`exif.Decode` either yields a decoded block (whose `DateTime()` call may or
may not recover an instant), or fails.  `ExtractExifData` maps `io.EOF` and
the error text `"no exif data"` to the non-fatal "no EXIF" outcome and
returns every other decode error to the caller.
-/

/-- Outcome of `exif.Decode` on the staged file. -/
inductive ExifDecode where
  /-- Decode succeeded; `DateTime()` recovered the given optional instant. -/
  | decodeOk (dateTime : Option Time)
  /-- Decode failed with `io.EOF` or the error `"no exif data"` (no EXIF
  block present). -/
  | noExifData
  /-- Decode failed with any other error (malformed/corrupt block). -/
  | decodeFailed (msg : String)
deriving DecidableEq, Repr

/-- The extractor `ExtractExifData`: `.ok (some t)` models `(&ExifData{DateTime: &t}, nil)`,
`.ok none` models `(nil, nil)`, `.error` models `(nil, err)`. -/
def extractExifData : ExifDecode → Except String (Option Time)
  | .decodeOk dt => .ok dt
  | .noExifData => .ok none
  | .decodeFailed msg =>
      .error ("não foi possível decodificar dados EXIF: " ++ msg)

/-!
Section: Ingestion pipeline (`PhotoService.UploadPhoto`)

An uploaded file is used by the core only through its original filename,
declared size/mime, its content digest (`calculateMD5Hash` of its bytes —
byte-identical contents have equal digests by functionality) and the
outcome of EXIF decoding on its bytes; we carry those projections.
-/

/-- The projections of a `*multipart.FileHeader` that `UploadPhoto` reads.
`contentHash` is `calculateMD5Hash` of the file bytes; `exifd` is the
outcome of `exif.Decode` on the same bytes. -/
structure UploadFile where
  filename : String
  contentHash : String
  exifd : ExifDecode
  size : Int
  mime : String
deriving DecidableEq, Repr

/-- The Go return pair `(*database.Photo, error)`. -/
structure GoResult where
  photo : Option Photo
  err : Option String
deriving DecidableEq, Repr

/-- Result of an ingestion: the returned pair plus the final file-system
and catalog states. -/
structure UploadOut where
  res : GoResult
  fs : FS
  db : DBState

/-- The `database.Photo` record `UploadPhoto` fills in before `DB.Create`
(step 6 of the pipeline): the original filename, the path returned by
`SavePhoto` for the organizing date, the ingestion instant, the optional
EXIF capture instant, the digest, and the declared size/mime; the
surrogate id is assigned by the store at commit. -/
def mkPhoto (base : String) (file : UploadFile) (uploadDate : Time)
    (exifDateTime : Option Time) (db : DBState) : Photo :=
  { id := db.nextId
    filename := file.filename
    storedPath := savePhotoPath base (exifDateTime.getD uploadDate) file.filename
    uploadDate := uploadDate
    exifDate := exifDateTime
    hash := file.contentHash
    fileSize := file.size
    mimeType := file.mime
    tags := "" }

/-- The pipeline `PhotoService.UploadPhoto`, with the catalog state split into the
snapshot seen by the duplicate pre-check (`dbPre`) and the snapshot in
force at `DB.Create` time (`dbCommit`).  Sequentially the two coincide
(`uploadPhoto` below); a concurrent identical upload committing between
the two calls is modelled by `dbPre ≠ dbCommit`.

Step for step: staging (temp copy, always removed — no net file-system
effect, not modelled), EXIF extraction (an extraction error aborts the
upload), organizing-date resolution, hashing, hash pre-check (a hit
returns the existing row together with a duplicate error), `SavePhoto`
placement, and `DB.Create` (on failure the placed file is removed and a
generic wrapped error is returned). -/
def uploadPhotoRace (base : String) (file : UploadFile) (uploadDate : Time)
    (dbPre dbCommit : DBState) (fs : FS) : UploadOut :=
  match extractExifData file.exifd with
  | .error e =>
      { res := { photo := none, err := some ("erro ao extrair dados EXIF: " ++ e) },
        fs := fs, db := dbCommit }
  | .ok exifDateTime =>
      let photoOrganizeDate := exifDateTime.getD uploadDate
      match dbFindByHash dbPre file.contentHash with
      | some existingPhoto =>
          { res := { photo := some existingPhoto,
                     err := some ("foto duplicada detectada (hash: " ++ file.contentHash
                       ++ ", caminho existente: " ++ existingPhoto.storedPath ++ ")") },
            fs := fs, db := dbCommit }
      | none =>
          let saved := savePhoto base photoOrganizeDate file.filename file.contentHash fs
          let fs₁ := saved.2
          let photo := mkPhoto base file uploadDate exifDateTime dbCommit
          if createConflict dbCommit photo then
            { res := { photo := none,
                       err := some ("não foi possível salvar os metadados da foto no banco de dados") },
              fs := fsRemove photo.storedPath fs₁, db := dbCommit }
          else
            { res := { photo := some photo, err := none },
              fs := fs₁,
              db := { photos := dbCommit.photos ++ [photo], nextId := dbCommit.nextId + 1 } }

/-- The pipeline `PhotoService.UploadPhoto` run without interference: pre-check and
commit observe the same catalog state. -/
def uploadPhoto (base : String) (file : UploadFile) (uploadDate : Time)
    (db : DBState) (fs : FS) : UploadOut :=
  uploadPhotoRace base file uploadDate db db fs

/-!
Section: Query engine (`PhotoService.GetPhotos`)
-/

/-- The filter record `service.PhotoFilter`.  Zero values mean "absent", as in Go. -/
structure PhotoFilter where
  year : Int := 0
  month : Nat := 0
  filename : String := ""
  tag : String := ""
  offset : Nat := 0
  limit : Nat := 0
  orderBy : String := ""
deriving Repr

/-- Helper for SQL `LIKE`: whether the second character list starts the first. -/
def startsWithChars : List Char → List Char → Bool
  | [], _ => true
  | _ :: _, [] => false
  | a :: as, b :: bs => a == b && startsWithChars as bs

def containsChars (hay needle : List Char) : Bool :=
  startsWithChars needle hay ||
    match hay with
    | [] => false
    | _ :: rest => containsChars rest needle

/-- SQL substring match `LIKE` with the pattern wrapped in percent signs. -/
def likeContains (s pat : String) : Bool :=
  containsChars s.toList pat.toList

/-- The `BETWEEN` disjunction built for the year filter:
`(exif_date BETWEEN …) OR (upload_date BETWEEN …)`.  A SQL `BETWEEN`
against a NULL `exif_date` is not satisfied. -/
def yearCond (p : Photo) (y : Int) : Bool :=
  (match p.exifDate with
   | some t => inYear t y
   | none => false) || inYear p.uploadDate y

/-- The `BETWEEN` disjunction built for the month filter. -/
def monthCond (p : Photo) (y : Int) (m : Nat) : Bool :=
  (match p.exifDate with
   | some t => inMonth t y m
   | none => false) || inMonth p.uploadDate y m

/-- The conjunction of all `Where` clauses `GetPhotos` accumulates for a
filter. -/
def photoMatches (f : PhotoFilter) (p : Photo) : Bool :=
  (f.year == 0 || yearCond p f.year) &&
  (f.month == 0 || monthCond p f.year f.month) &&
  (f.filename == "" || likeContains p.filename f.filename) &&
  (f.tag == "" || likeContains p.tags f.tag)

/-- SQLite comparison on a nullable `exif_date` column: NULL sorts below
every value. -/
def optTimeLe : Option Time → Option Time → Bool
  | none, _ => true
  | some _, none => false
  | some a, some b => timeLe a b

/-- The default ordering `Order("exif_date DESC").Order("upload_date DESC")`:
`p` precedes (or ties) `q` iff `q.exif_date ≤ p.exif_date` in the SQLite
NULL-smallest order, with equal `exif_date` broken by
`q.upload_date ≤ p.upload_date`. -/
def defaultLe (p q : Photo) : Bool :=
  if optTimeLe q.exifDate p.exifDate then
    if optTimeLe p.exifDate q.exifDate then timeLe q.uploadDate p.uploadDate
    else true
  else false

def defaultOrder : Photo → Photo → Prop := fun p q => defaultLe p q = true

instance : DecidableRel defaultOrder :=
  fun p q => inferInstanceAs (Decidable (defaultLe p q = true))

/-- The query `PhotoService.GetPhotos`: validates the month/year combination, filters,
orders (default order when `OrderBy` is empty; a non-empty `OrderBy` is an
opaque SQL fragment handed to the engine and is modelled as leaving the
rows in store order), then applies `OFFSET`/`LIMIT` (each only when
positive). -/
def getPhotos (db : DBState) (f : PhotoFilter) : Except String (List Photo) :=
  if f.month ≠ 0 ∧ f.year == 0 then
    .error ("filtrar por mês requer que o ano também seja especificado")
  else
    let filtered := db.photos.filter (photoMatches f)
    let ordered :=
      if f.orderBy == "" then filtered.insertionSort defaultOrder else filtered
    let paged := (if f.offset > 0 then ordered.drop f.offset else ordered)
    .ok (if f.limit > 0 then paged.take f.limit else paged)

/-!
Section: Timeline (`PhotoService.GetPhotosByTimeline`)

The Go code folds the ordered rows into a nested map
`year -> month -> []Photo`, first ensuring the bucket exists, then
appending only while `limitPerMonth == 0 || len(bucket) < limitPerMonth`.
We model the nested map as an association list keyed by (year, month) in
first-encounter order.
-/

abbrev Timeline := List ((Int × Nat) × List Photo)

/-- Go map read `timeline[year][month]` (with presence bit). -/
def tlLookup : Timeline → (Int × Nat) → Option (List Photo)
  | [], _ => none
  | e :: t, k => if e.1 == k then some e.2 else tlLookup t k

/-- Go map write appending `p` to the bucket of `k` (present buckets only). -/
def tlAppend : Timeline → (Int × Nat) → Photo → Timeline
  | [], _, _ => []
  | e :: t, k, p => (if e.1 == k then (e.1, e.2 ++ [p]) else e) :: tlAppend t k p

/-- The `timeline[year][month] = []Photo{}` initialization when the
bucket is absent. -/
def tlEnsure (tl : Timeline) (k : Int × Nat) : Timeline :=
  if (tlLookup tl k).isSome then tl else tl ++ [(k, [])]

/-- The pair `dateToUse.Year()` and `int(dateToUse.Month())` for a photo: the
year/month bucket key of the grouping loop. -/
def keyOf (p : Photo) : Int × Nat :=
  let dateToUse := organizingTimestamp p
  (dateToUse.year, dateToUse.month)

/-- The per-photo step of the grouping loop. -/
def timelineStep (limitPerMonth : Int) (tl : Timeline) (p : Photo) : Timeline :=
  let k := keyOf p
  let tl₁ := tlEnsure tl k
  let bucket := (tlLookup tl₁ k).getD []
  if limitPerMonth == 0 ∨ bucket.length < limitPerMonth then
    tlAppend tl₁ k p
  else tl₁

/-- The grouping loop of `GetPhotosByTimeline` over an already-ordered row
list. -/
def timelineOf (limitPerMonth : Int) (photos : List Photo) : Timeline :=
  photos.foldl (timelineStep limitPerMonth) []

/-- The endpoint `PhotoService.GetPhotosByTimeline`: rows fetched in the default order,
then grouped. -/
def getPhotosByTimeline (db : DBState) (limitPerMonth : Int) : Timeline :=
  timelineOf limitPerMonth (db.photos.insertionSort defaultOrder)

/-!
Section: Concrete fixtures used by witnesses and counterexamples
-/

def basePath : String := "/photos"
def db0 : DBState := { photos := [], nextId := 1 }
def fs0 : FS := []

def tJun15 : Time := ⟨2023, 6, 14⟩
def tJun20 : Time := ⟨2023, 6, 19⟩
def tJul1 : Time := ⟨2023, 7, 0⟩
def tJul2 : Time := ⟨2023, 7, 1⟩
def tJul10 : Time := ⟨2023, 7, 9⟩

/-- First upload: content `aaa111`, EXIF capture June 2023. -/
def fileA : UploadFile :=
  { filename := "photo.jpg", contentHash := "aaa111",
    exifd := .decodeOk (some tJun15), size := 1000, mime := "image/jpeg" }

/-- Different content, same original filename, capture also June 2023. -/
def fileB : UploadFile :=
  { filename := "photo.jpg", contentHash := "bbb222",
    exifd := .decodeOk (some tJun20), size := 2000, mime := "image/jpeg" }

/-- Different content, same original filename, capture July 2023 (a
different month, hence a different target directory). -/
def fileC : UploadFile :=
  { filename := "photo.jpg", contentHash := "ccc777",
    exifd := .decodeOk (some tJul10), size := 3000, mime := "image/jpeg" }

/-- Byte-identical to `fileA` (same digest) under another filename, with
no EXIF block. -/
def fileDup : UploadFile :=
  { filename := "other.jpg", contentHash := "aaa111",
    exifd := .noExifData, size := 1000, mime := "image/jpeg" }

/-- A file whose EXIF block is malformed: `exif.Decode` fails with an
error that is neither `io.EOF` nor the text `"no exif data"`. -/
def fileBadExif : UploadFile :=
  { filename := "corrupt.jpg", contentHash := "ccc333",
    exifd := .decodeFailed ("bad TIFF header"), size := 10, mime := "image/jpeg" }

/-- A file with no EXIF block at all. -/
def fileNoExif : UploadFile :=
  { filename := "plain.jpg", contentHash := "eee555",
    exifd := .noExifData, size := 42, mime := "image/png" }

/-- The state after ingesting `fileA` into the empty library. -/
def outA : UploadOut := uploadPhoto basePath fileA tJul1 db0 fs0

/-- The catalog row created for `fileA`. -/
def photoA : Photo := mkPhoto basePath fileA tJul1 (some tJun15) db0

/-!
Section: Helper lemmas
-/

/-- After `os.Remove(path)`, reading `path` finds nothing. -/
theorem fsRead_fsRemove (p : String) (fs : FS) : fsRead (fsRemove p fs) p = none := by
  induction fs with
  | nil => rfl
  | cons e t ih =>
      by_cases h : e.1 == p
      · simp only [fsRemove, fsRead] at ih ⊢
        simp [h, ih]
      · simp only [fsRemove, fsRead] at ih ⊢
        simp [h, ih]

/-!
Section: Claims
-/

/-- C1 (code bug).  The claim says the stored name incorporates the
content hash so that two different contents with identical original
filenames uploaded in the same month never share a location.
`FileManager.SavePhoto` instead uses the raw original filename:
`fileA`/`fileB` have different contents (digests `aaa111` / `bbb222`) and
both organize into June 2023, yet resolve to the identical location
`/photos/2023/06/photo.jpg`.  Concretely, the first upload succeeds there,
and the second upload first overwrites the stored bytes, then fails its
catalog commit and removes the file, leaving the catalog row of `fileA`
pointing at a path that no longer exists. -/
theorem c1_stored_name_is_raw_filename :
    outA.res.err = none
  ∧ outA.res.photo.map Photo.storedPath = some (savePhotoPath basePath tJun15 fileA.filename)
  ∧ fileA.contentHash ≠ fileB.contentHash
  ∧ savePhotoPath basePath tJun15 fileA.filename = savePhotoPath basePath tJun20 fileB.filename
  ∧ (uploadPhoto basePath fileB tJul2 outA.db outA.fs).res.err.isSome = true
  ∧ fsRead (uploadPhoto basePath fileB tJul2 outA.db outA.fs).fs
      (savePhotoPath basePath tJun15 fileA.filename) = none
  ∧ (uploadPhoto basePath fileB tJul2 outA.db outA.fs).db.photos.map Photo.storedPath
      = [savePhotoPath basePath tJun15 fileA.filename] := by
  decide

/-- C2 (code bug).  The claim says a duplicate detected by the
uniqueness-constraint violation at commit time yields the same outcome as
the pre-check path: a reference to the pre-existing entry, never a generic
persistence error.  In the code the pre-check path does return the
existing row, but when the pre-check of an identical upload misses (catalog
snapshot `db0`) and the `hash` constraint fires at `DB.Create` time
(catalog snapshot `outA.db`, which already holds digest `aaa111`), the
pipeline returns `nil` and the generic wrapped persistence error — no
reference to the existing entry — though no second row is created. -/
theorem c2_commit_race_generic_error :
    dbFindByHash db0 fileDup.contentHash = none
  ∧ (dbFindByHash outA.db fileDup.contentHash).isSome = true
  ∧ (uploadPhoto basePath fileDup tJul2 outA.db outA.fs).res.photo = some photoA
  ∧ (uploadPhotoRace basePath fileDup tJul2 db0 outA.db outA.fs).res.photo = none
  ∧ (uploadPhotoRace basePath fileDup tJul2 db0 outA.db outA.fs).res.err
      = some ("não foi possível salvar os metadados da foto no banco de dados")
  ∧ (uploadPhotoRace basePath fileDup tJul2 db0 outA.db outA.fs).db.photos.length = 1 := by
  decide

/-- C3 (confirmed).  If the catalog commit fails after the file has
been placed, `UploadPhoto` removes the placed file (`os.Remove(storedPath)`)
before returning the error, so the failed ingestion leaves no file at the
resolved stored location. -/
theorem c3_commit_failure_removes_placed_file (base : String) (file : UploadFile)
    (uploadDate : Time) (dbPre dbCommit : DBState) (fs : FS) (dt : Option Time)
    (hex : extractExifData file.exifd = .ok dt)
    (hpre : dbFindByHash dbPre file.contentHash = none)
    (hconf : createConflict dbCommit (mkPhoto base file uploadDate dt dbCommit) = true) :
    (uploadPhotoRace base file uploadDate dbPre dbCommit fs).res.err.isSome = true
  ∧ fsRead (uploadPhotoRace base file uploadDate dbPre dbCommit fs).fs
      (mkPhoto base file uploadDate dt dbCommit).storedPath = none := by
  simp only [uploadPhotoRace, hex, hpre, hconf]
  simp [fsRead_fsRemove]

/-- Witness for C3: `fileB` after `fileA` — its commit fails (filename and
stored-path uniqueness), and afterward its resolved location is absent
from storage. -/
theorem c3_witness :
    extractExifData fileB.exifd = .ok (some tJun20)
  ∧ dbFindByHash outA.db fileB.contentHash = none
  ∧ createConflict outA.db (mkPhoto basePath fileB tJul2 (some tJun20) outA.db) = true
  ∧ ((uploadPhotoRace basePath fileB tJul2 outA.db outA.db outA.fs).res.err.isSome = true
     ∧ fsRead (uploadPhotoRace basePath fileB tJul2 outA.db outA.db outA.fs).fs
         (mkPhoto basePath fileB tJul2 (some tJun20) outA.db).storedPath = none) :=
  ⟨rfl, by decide, by decide,
   c3_commit_failure_removes_placed_file basePath fileB tJul2 outA.db outA.db outA.fs
     (some tJun20) rfl (by decide) (by decide)⟩

/-- C6 counterexample.  The claim says a malformed/corrupt metadata
block is non-fatal.  `ExtractExifData` maps only `io.EOF` and the error
text `"no exif data"` to the non-fatal outcome; any other decode error is
returned, and `UploadPhoto` then aborts the ingestion: no row is created
and an error is surfaced. -/
theorem c6_counterexample :
    extractExifData fileBadExif.exifd
      = .error ("não foi possível decodificar dados EXIF: bad TIFF header")
  ∧ (uploadPhoto basePath fileBadExif tJul1 db0 fs0).res.photo = none
  ∧ (uploadPhoto basePath fileBadExif tJul1 db0 fs0).res.err
      = some ("erro ao extrair dados EXIF: não foi possível decodificar dados EXIF: bad TIFF header")
  ∧ (uploadPhoto basePath fileBadExif tJul1 db0 fs0).db.photos = [] :=
  ⟨rfl, rfl, rfl, rfl⟩

/-- C6 as amended: when the metadata block is absent (decode signals
`io.EOF`/`"no exif data"`) or present but without an extractable
timestamp, extraction is non-fatal — it yields "no timestamp" and the
ingestion continues, falling back to the ingestion instant for placement;
only the remaining decode failures abort the upload. -/
theorem c6_absent_metadata_nonfatal (base : String) (file : UploadFile) (d : Time)
    (db : DBState) (fs : FS)
    (hnf : file.exifd = ExifDecode.noExifData ∨ file.exifd = ExifDecode.decodeOk none)
    (hpre : dbFindByHash db file.contentHash = none)
    (hok : createConflict db (mkPhoto base file d none db) = false) :
    extractExifData file.exifd = .ok none
  ∧ (uploadPhoto base file d db fs).res.err = none
  ∧ (uploadPhoto base file d db fs).res.photo = some (mkPhoto base file d none db)
  ∧ (mkPhoto base file d none db).exifDate = none
  ∧ (mkPhoto base file d none db).storedPath = savePhotoPath base d file.filename := by
  have hex : extractExifData file.exifd = .ok none := by
    rcases hnf with h | h <;> simp [extractExifData, h]
  refine ⟨hex, ?_, ?_, rfl, rfl⟩ <;>
    simp [uploadPhoto, uploadPhotoRace, hex, hpre, hok]

/-- Witness for the amended C6: `fileNoExif` ingests successfully into the
empty library with no capture timestamp. -/
theorem c6_witness :
    (fileNoExif.exifd = ExifDecode.noExifData ∨ fileNoExif.exifd = ExifDecode.decodeOk none)
  ∧ dbFindByHash db0 fileNoExif.contentHash = none
  ∧ createConflict db0 (mkPhoto basePath fileNoExif tJul1 none db0) = false
  ∧ (extractExifData fileNoExif.exifd = .ok none
     ∧ (uploadPhoto basePath fileNoExif tJul1 db0 fs0).res.err = none
     ∧ (uploadPhoto basePath fileNoExif tJul1 db0 fs0).res.photo
         = some (mkPhoto basePath fileNoExif tJul1 none db0)
     ∧ (mkPhoto basePath fileNoExif tJul1 none db0).exifDate = none
     ∧ (mkPhoto basePath fileNoExif tJul1 none db0).storedPath
         = savePhotoPath basePath tJul1 fileNoExif.filename) :=
  ⟨Or.inl rfl, rfl, by decide,
   c6_absent_metadata_nonfatal basePath fileNoExif tJul1 db0 fs0
     (Or.inl rfl) rfl (by decide)⟩

/-- C7 counterexample.  The claim says two different contents with the
same original filename can coexist as two live entries.  The `Photo`
model carries `gorm:"uniqueIndex"` on `Filename`, so after `fileA` is
cataloged, ingesting `fileC` — different content `ccc777`, different
capture month (July), hence even a different stored location — still
fails its commit on the filename constraint and leaves a single row. -/
theorem c7_counterexample :
    fileC.contentHash ≠ fileA.contentHash
  ∧ fileC.filename = fileA.filename
  ∧ (mkPhoto basePath fileC tJul2 (some tJul10) outA.db).storedPath
      ∉ outA.db.photos.map Photo.storedPath
  ∧ (uploadPhoto basePath fileC tJul2 outA.db outA.fs).res.photo = none
  ∧ (uploadPhoto basePath fileC tJul2 outA.db outA.fs).res.err.isSome = true
  ∧ (uploadPhoto basePath fileC tJul2 outA.db outA.fs).db.photos.length = 1 := by
  decide

/-- C7 as amended: `originalFilename` is globally unique across live
entries (it carries its own uniqueness constraint, alongside
`contentHash` and `storedLocation`): a second ingestion of different
content under an already-cataloged filename fails its commit and creates
no second entry. -/
theorem c7_filename_is_unique (base : String) (file : UploadFile) (d : Time)
    (db : DBState) (fs : FS) (dt : Option Time)
    (hex : extractExifData file.exifd = .ok dt)
    (hpre : dbFindByHash db file.contentHash = none)
    (hname : ∃ q ∈ db.photos, q.filename = file.filename) :
    (uploadPhoto base file d db fs).res.photo = none
  ∧ (uploadPhoto base file d db fs).res.err.isSome = true
  ∧ (uploadPhoto base file d db fs).db = db := by
  have hconf : createConflict db (mkPhoto base file d dt db) = true := by
    obtain ⟨q, hq, hqn⟩ := hname
    simp only [createConflict, List.any_eq_true]
    exact ⟨q, hq, by simp [mkPhoto, hqn]⟩
  simp [uploadPhoto, uploadPhotoRace, hex, hpre, hconf]

/-- Witness for the amended C7: `fileC` against the library holding
`photoA`. -/
theorem c7_witness :
    extractExifData fileC.exifd = .ok (some tJul10)
  ∧ dbFindByHash outA.db fileC.contentHash = none
  ∧ (∃ q ∈ outA.db.photos, q.filename = fileC.filename)
  ∧ ((uploadPhoto basePath fileC tJul2 outA.db outA.fs).res.photo = none
     ∧ (uploadPhoto basePath fileC tJul2 outA.db outA.fs).res.err.isSome = true
     ∧ (uploadPhoto basePath fileC tJul2 outA.db outA.fs).db = outA.db) :=
  ⟨rfl, by decide, ⟨photoA, by decide, by decide⟩,
   c7_filename_is_unique basePath fileC tJul2 outA.db outA.fs (some tJul10)
     rfl (by decide) ⟨photoA, by decide, by decide⟩⟩

/-- C8 (confirmed).  `GetPhotos` with a non-zero month and a zero year
returns the validation error and no result set. -/
theorem c8_month_without_year (db : DBState) (f : PhotoFilter)
    (hm : f.month ≠ 0) (hy : f.year = 0) :
    getPhotos db f = .error ("filtrar por mês requer que o ano também seja especificado") := by
  simp [getPhotos, hm, hy]

/-- Witness for C8: `list(month=6)` with no year. -/
theorem c8_witness :
    ({ month := 6 } : PhotoFilter).month ≠ 0
  ∧ ({ month := 6 } : PhotoFilter).year = 0
  ∧ getPhotos db0 { month := 6 }
      = .error ("filtrar por mês requer que o ano também seja especificado") :=
  ⟨by decide, rfl, c8_month_without_year db0 { month := 6 } (by decide) rfl⟩

/-- C9 (confirmed).  A successful ingestion catalogs exactly the
record whose stored location is resolved from the organizing date —
the extracted capture instant when extraction yields one, else the
ingestion instant — and whose EXIF field records the extraction
outcome. -/
theorem c9_placement_uses_organizing_date (base : String) (file : UploadFile)
    (d : Time) (db : DBState) (fs : FS) (dt : Option Time)
    (hex : extractExifData file.exifd = .ok dt)
    (hpre : dbFindByHash db file.contentHash = none)
    (hok : createConflict db (mkPhoto base file d dt db) = false) :
    (uploadPhoto base file d db fs).res.photo = some (mkPhoto base file d dt db)
  ∧ (uploadPhoto base file d db fs).res.err = none
  ∧ (mkPhoto base file d dt db).storedPath = savePhotoPath base (dt.getD d) file.filename
  ∧ (mkPhoto base file d dt db).exifDate = dt
  ∧ (mkPhoto base file d dt db).uploadDate = d := by
  refine ⟨?_, ?_, rfl, rfl, rfl⟩ <;>
    simp [uploadPhoto, uploadPhotoRace, hex, hpre, hok]

/-- Witness for C9: the capture instant of `fileA` is June 2023, and its row
lands at `/photos/2023/06/photo.jpg`; the ingestion instant (July 2023)
plays no part since extraction succeeded. -/
theorem c9_witness :
    extractExifData fileA.exifd = .ok (some tJun15)
  ∧ dbFindByHash db0 fileA.contentHash = none
  ∧ createConflict db0 (mkPhoto basePath fileA tJul1 (some tJun15) db0) = false
  ∧ ((uploadPhoto basePath fileA tJul1 db0 fs0).res.photo
       = some (mkPhoto basePath fileA tJul1 (some tJun15) db0)
     ∧ (uploadPhoto basePath fileA tJul1 db0 fs0).res.err = none
     ∧ (mkPhoto basePath fileA tJul1 (some tJun15) db0).storedPath
         = savePhotoPath basePath ((some tJun15).getD tJul1) fileA.filename
     ∧ (mkPhoto basePath fileA tJul1 (some tJun15) db0).exifDate = some tJun15
     ∧ (mkPhoto basePath fileA tJul1 (some tJun15) db0).uploadDate = tJul1)
  ∧ savePhotoPath basePath tJun15 fileA.filename = ("/photos/2023/06/photo.jpg") :=
  ⟨rfl, rfl, by decide,
   c9_placement_uses_organizing_date basePath fileA tJul1 db0 fs0 (some tJun15)
     rfl rfl (by decide),
   by decide⟩

/-!
Section: Ordering lemmas for the default `GetPhotos` order
-/

theorem optTimeLe_total (a b : Option Time) :
    optTimeLe a b = true ∨ optTimeLe b a = true := by
  cases a <;> cases b <;> simp [optTimeLe]
  exact timeLe_total _ _

theorem optTimeLe_trans {a b c : Option Time} (h₁ : optTimeLe a b = true)
    (h₂ : optTimeLe b c = true) : optTimeLe a c = true := by
  cases a <;> cases b <;> cases c <;> simp_all [optTimeLe]
  exact timeLe_trans h₁ h₂

theorem defaultLe_elim {p q : Photo} (h : defaultLe p q = true) :
    optTimeLe q.exifDate p.exifDate = true ∧
      (optTimeLe p.exifDate q.exifDate = true →
        timeLe q.uploadDate p.uploadDate = true) := by
  unfold defaultLe at h
  by_cases h₁ : optTimeLe q.exifDate p.exifDate = true
  · by_cases h₂ : optTimeLe p.exifDate q.exifDate = true
    · refine ⟨h₁, fun _ => ?_⟩
      simpa [h₁, h₂] using h
    · exact ⟨h₁, fun hc => absurd hc h₂⟩
  · simp [h₁] at h

theorem defaultLe_intro {p q : Photo}
    (h₁ : optTimeLe q.exifDate p.exifDate = true)
    (h₂ : optTimeLe p.exifDate q.exifDate = true →
      timeLe q.uploadDate p.uploadDate = true) :
    defaultLe p q = true := by
  unfold defaultLe
  by_cases hc : optTimeLe p.exifDate q.exifDate = true
  · simp [h₁, hc, h₂ hc]
  · simp [h₁, hc]

theorem defaultLe_total (p q : Photo) :
    defaultLe p q = true ∨ defaultLe q p = true := by
  rcases optTimeLe_total q.exifDate p.exifDate with h₁ | h₁
  · by_cases h₂ : optTimeLe p.exifDate q.exifDate = true
    · rcases timeLe_total q.uploadDate p.uploadDate with hu | hu
      · exact Or.inl (defaultLe_intro h₁ (fun _ => hu))
      · exact Or.inr (defaultLe_intro h₂ (fun _ => hu))
    · exact Or.inl (defaultLe_intro h₁ (fun hc => absurd hc h₂))
  · by_cases h₂ : optTimeLe q.exifDate p.exifDate = true
    · rcases timeLe_total q.uploadDate p.uploadDate with hu | hu
      · exact Or.inl (defaultLe_intro h₂ (fun _ => hu))
      · exact Or.inr (defaultLe_intro h₁ (fun _ => hu))
    · exact Or.inr (defaultLe_intro h₁ (fun hc => absurd hc h₂))

theorem defaultLe_trans {p q r : Photo} (h₁ : defaultLe p q = true)
    (h₂ : defaultLe q r = true) : defaultLe p r = true := by
  obtain ⟨hBA, hPQ⟩ := defaultLe_elim h₁
  obtain ⟨hCB, hQR⟩ := defaultLe_elim h₂
  refine defaultLe_intro (optTimeLe_trans hCB hBA) (fun hAC => ?_)
  have hAB : optTimeLe p.exifDate q.exifDate = true := optTimeLe_trans hAC hCB
  have hBC : optTimeLe q.exifDate r.exifDate = true := optTimeLe_trans hBA hAC
  exact timeLe_trans (hQR hBC) (hPQ hAB)

instance : IsTotal Photo defaultOrder := ⟨fun a b => defaultLe_total a b⟩

instance : IsTrans Photo defaultOrder := ⟨fun _ _ _ h₁ h₂ => defaultLe_trans h₁ h₂⟩

/-- Semantic reading of the year-filter disjunction. -/
theorem yearCond_iff (p : Photo) (y : Int) :
    yearCond p y = true ↔
      ((∃ t, p.exifDate = some t ∧ inYear t y = true) ∨ inYear p.uploadDate y = true) := by
  cases h : p.exifDate <;> simp [yearCond, h]

/-- Semantic reading of the month-filter disjunction. -/
theorem monthCond_iff (p : Photo) (y : Int) (m : Nat) :
    monthCond p y m = true ↔
      ((∃ t, p.exifDate = some t ∧ inMonth t y m = true) ∨ inMonth p.uploadDate y m = true) := by
  cases h : p.exifDate <;> simp [monthCond, h]

/-!
Section: C4 and C5
-/

/-- A photo captured in May 2020 but uploaded in July 2023. -/
def photoX : Photo :=
  { id := 1, filename := "x.jpg", storedPath := "/photos/2020/05/x.jpg",
    uploadDate := ⟨2023, 7, 2⟩, exifDate := some ⟨2020, 5, 0⟩,
    hash := "hx", fileSize := 5, mimeType := "image/jpeg", tags := "" }

def dbX : DBState := { photos := [photoX], nextId := 2 }

/-- C4 counterexample.  The claim says an entry whose capture timestamp
is present but outside the filter interval is not matched via its
ingestion timestamp.  `GetPhotos` builds
`(exif_date BETWEEN …) OR (upload_date BETWEEN …)`: `photoX` has a capture
timestamp of May 2020 — its organizing timestamp, outside 2023 — yet
`list(year=2023)` returns it, matched through its July 2023 upload
date. -/
theorem c4_counterexample :
    getPhotos dbX { year := 2023 } = .ok [photoX]
  ∧ photoX.exifDate.isSome = true
  ∧ organizingTimestamp photoX = ⟨2020, 5, 0⟩
  ∧ inYear (organizingTimestamp photoX) 2023 = false :=
  ⟨rfl, rfl, rfl, by decide⟩

/-- C4 as amended: a year filter (with optional month) matches exactly
the entries for which *either* the capture timestamp (when present) *or*
the ingestion timestamp falls within the corresponding calendar interval
— not the single derived organizing timestamp. -/
theorem c4_filter_matches_either_timestamp (db : DBState) (f : PhotoFilter)
    (p : Photo) (l : List Photo)
    (hy : f.year ≠ 0) (hf : f.filename = "") (ht : f.tag = "")
    (hl : f.limit = 0) (ho : f.offset = 0)
    (hres : getPhotos db f = .ok l) :
    p ∈ l ↔ p ∈ db.photos
      ∧ ((∃ t, p.exifDate = some t ∧ inYear t f.year = true)
          ∨ inYear p.uploadDate f.year = true)
      ∧ (f.month = 0
          ∨ (∃ t, p.exifDate = some t ∧ inMonth t f.year f.month = true)
          ∨ inMonth p.uploadDate f.year f.month = true) := by
  unfold getPhotos at hres
  have hguard : ¬ (f.month ≠ 0 ∧ (f.year == 0) = true) := by
    simp [hy]
  rw [if_neg hguard, Except.ok.injEq] at hres
  subst hres
  have hmem :
      p ∈ (if f.orderBy == "" then
            (db.photos.filter (photoMatches f)).insertionSort defaultOrder
           else db.photos.filter (photoMatches f)) ↔
        p ∈ db.photos.filter (photoMatches f) := by
    split <;> simp
  simp only [hl, ho, gt_iff_lt, Nat.lt_irrefl, if_false]
  rw [hmem, List.mem_filter]
  unfold photoMatches
  simp [hf, ht, hy, yearCond_iff, monthCond_iff]

/-- Witness for the amended C4: `photoX` matched by `list(year=2023)`
through its upload date. -/
theorem c4_witness :
    photoX ∈ [photoX] ↔ photoX ∈ dbX.photos
      ∧ ((∃ t, photoX.exifDate = some t ∧ inYear t (2023 : Int) = true)
          ∨ inYear photoX.uploadDate 2023 = true)
      ∧ (({ year := 2023 } : PhotoFilter).month = 0
          ∨ (∃ t, photoX.exifDate = some t
              ∧ inMonth t ({ year := 2023 } : PhotoFilter).year
                  ({ year := 2023 } : PhotoFilter).month = true)
          ∨ inMonth photoX.uploadDate ({ year := 2023 } : PhotoFilter).year
              ({ year := 2023 } : PhotoFilter).month = true) :=
  c4_filter_matches_either_timestamp dbX { year := 2023 } photoX [photoX]
    (by decide) rfl rfl rfl rfl rfl

/-- A photo with no capture timestamp, uploaded January 2024. -/
def photoNew : Photo :=
  { id := 1, filename := "new.jpg", storedPath := "/photos/2024/01/new.jpg",
    uploadDate := ⟨2024, 1, 0⟩, exifDate := none,
    hash := "hn", fileSize := 1, mimeType := "image/jpeg", tags := "" }

/-- A photo captured and uploaded January 2020. -/
def photoOld : Photo :=
  { id := 2, filename := "old.jpg", storedPath := "/photos/2020/01/old.jpg",
    uploadDate := ⟨2020, 1, 1⟩, exifDate := some ⟨2020, 1, 0⟩,
    hash := "ho", fileSize := 1, mimeType := "image/jpeg", tags := "" }

def dbOrd : DBState := { photos := [photoNew, photoOld], nextId := 3 }

/-- C5 counterexample.  The claim says the default order is
`organizingTimestamp` descending with id-descending tie-breaks.  The code
orders by `exif_date DESC, upload_date DESC`; under SQLite a NULL
`exif_date` sorts below every value, so `photoOld` (captured January
2020) is returned *before* `photoNew` (no capture timestamp, organizing
timestamp January 2024), although the organizing timestamp of `photoNew` is
strictly newer. -/
theorem c5_counterexample :
    getPhotos dbOrd {} = .ok [photoOld, photoNew]
  ∧ timeLt (organizingTimestamp photoOld) (organizingTimestamp photoNew) = true :=
  ⟨rfl, by decide⟩

/-- C5 as amended: with no `orderBy`, `GetPhotos` returns entries
sorted by `exif_date` descending with entries lacking a capture timestamp
last (SQLite NULL-smallest), ties broken by `upload_date` descending; the
organizing timestamp is not the sort key, and the surrogate id is not
used as a tie-break (order among rows equal on both columns is left to
the engine). -/
theorem c5_default_order_exif_then_upload (db : DBState) (f : PhotoFilter)
    (l : List Photo) (hob : f.orderBy = "")
    (hres : getPhotos db f = .ok l) : l.Sorted defaultOrder := by
  unfold getPhotos at hres
  by_cases hguard : f.month ≠ 0 ∧ (f.year == 0) = true
  · rw [if_pos hguard] at hres
    exact absurd hres (by simp)
  · rw [if_neg hguard, Except.ok.injEq] at hres
    subst hres
    set ord :=
      (if f.orderBy == "" then
        (db.photos.filter (photoMatches f)).insertionSort defaultOrder
       else db.photos.filter (photoMatches f)) with hord
    have hsorted : ord.Sorted defaultOrder := by
      rw [hord]
      simp only [hob]
      exact List.sorted_insertionSort defaultOrder _
    have h₁ : (if f.offset > 0 then ord.drop f.offset else ord).Sublist ord := by
      split
      · exact List.drop_sublist _ _
      · exact List.Sublist.refl _
    have hsub :
        (if f.limit > 0 then
           (if f.offset > 0 then ord.drop f.offset else ord).take f.limit
         else (if f.offset > 0 then ord.drop f.offset else ord)).Sublist ord := by
      split
      · exact (List.take_sublist _ _).trans h₁
      · exact h₁
    exact List.Pairwise.sublist hsub hsorted

/-- Witness for the amended C5: the two-row library above comes back in
`exif_date DESC NULLS LAST, upload_date DESC` order. -/
theorem c5_witness : ([photoOld, photoNew] : List Photo).Sorted defaultOrder :=
  c5_default_order_exif_then_upload dbOrd {} [photoOld, photoNew] rfl rfl

/-!
Section: Timeline lookup lemmas
-/

theorem tlLookup_append_new (tl : Timeline) (k : Int × Nat) (v : List Photo)
    (h : tlLookup tl k = none) : tlLookup (tl ++ [(k, v)]) k = some v := by
  induction tl with
  | nil => simp [tlLookup]
  | cons e t ih =>
      by_cases he : e.1 == k
      · simp [tlLookup, he] at h
      · simp only [tlLookup, he, if_neg, Bool.false_eq_true, if_false] at h
        simpa [tlLookup, he] using ih h

theorem tlLookup_append_other (tl : Timeline) (k k' : Int × Nat) (v : List Photo)
    (h : ¬ k = k') : tlLookup (tl ++ [(k, v)]) k' = tlLookup tl k' := by
  induction tl with
  | nil => simp [tlLookup, h]
  | cons e t ih =>
      by_cases he : e.1 == k'
      · simp [tlLookup, he]
      · simpa [tlLookup, he] using ih

theorem tlLookup_ensure_self (tl : Timeline) (k : Int × Nat) :
    tlLookup (tlEnsure tl k) k = some ((tlLookup tl k).getD []) := by
  unfold tlEnsure
  cases h : tlLookup tl k with
  | some v => simp [h]
  | none =>
      simp only [h, Option.isSome_none, Bool.false_eq_true, if_false, Option.getD_none]
      exact tlLookup_append_new tl k [] h

theorem tlLookup_ensure_ne (tl : Timeline) (k k' : Int × Nat) (h : ¬ k = k') :
    tlLookup (tlEnsure tl k) k' = tlLookup tl k' := by
  unfold tlEnsure
  split
  · rfl
  · exact tlLookup_append_other tl k k' [] h

theorem tlLookup_append_self (tl : Timeline) (k : Int × Nat) (p : Photo)
    (v : List Photo) (h : tlLookup tl k = some v) :
    tlLookup (tlAppend tl k p) k = some (v ++ [p]) := by
  induction tl with
  | nil => simp [tlLookup] at h
  | cons e t ih =>
      by_cases he : e.1 == k
      · simp only [tlLookup, he, if_pos, if_true, Option.some.injEq] at h
        simp [tlAppend, tlLookup, he, h]
      · simp only [tlLookup, he, Bool.false_eq_true, if_false] at h
        simpa [tlAppend, tlLookup, he] using ih h

theorem tlLookup_append_ne (tl : Timeline) (k k' : Int × Nat) (p : Photo)
    (h : ¬ k' = k) : tlLookup (tlAppend tl k p) k' = tlLookup tl k' := by
  induction tl with
  | nil => rfl
  | cons e t ih =>
      by_cases he : e.1 == k
      · have hk : e.1 = k := by simpa using he
        have he' : (e.1 == k') = false := by
          rw [beq_eq_false_iff_ne, hk]
          exact fun hc => h hc.symm
        simpa [tlAppend, tlLookup, he, he'] using ih
      · by_cases hk' : e.1 == k'
        · simp [tlAppend, tlLookup, he, hk']
        · simpa [tlAppend, tlLookup, he, hk'] using ih

/-- One grouping step, seen through bucket lookup: only the bucket keyed by the
photo itself changes; it is created empty if absent, and the photo is
appended exactly when the limit test passes. -/
theorem timelineStep_lookup (n : Int) (tl : Timeline) (p : Photo) (k : Int × Nat) :
    tlLookup (timelineStep n tl p) k =
      if keyOf p = k then
        (if n == 0 ∨ ((tlLookup tl k).getD []).length < n
         then some (((tlLookup tl k).getD []) ++ [p])
         else some ((tlLookup tl k).getD []))
      else tlLookup tl k := by
  by_cases hk : keyOf p = k
  · subst hk
    rw [if_pos rfl]
    have hens := tlLookup_ensure_self tl (keyOf p)
    simp only [timelineStep, hens, Option.getD_some]
    by_cases hcond : (n == 0) = true ∨ (((tlLookup tl (keyOf p)).getD []).length : Int) < n
    · rw [if_pos hcond, if_pos hcond]
      exact tlLookup_append_self _ _ _ _ hens
    · rw [if_neg hcond, if_neg hcond]
      exact hens
  · rw [if_neg hk]
    have hens := tlLookup_ensure_ne tl (keyOf p) k hk
    simp only [timelineStep]
    split
    · rw [tlLookup_append_ne _ _ _ _ (fun hc => hk hc.symm)]
      exact hens
    · exact hens

/-- Grouping with `limitPerMonth = 0`: each bucket accumulates every
photo of its key, in traversal order, on top of whatever the accumulator
already held. -/
theorem timelineOf_zero_lookup (photos : List Photo) :
    ∀ (acc : Timeline) (k : Int × Nat),
    tlLookup (photos.foldl (timelineStep 0) acc) k =
      match tlLookup acc k with
      | none =>
          (if (photos.filter (fun p => keyOf p == k)).isEmpty then none
           else some (photos.filter (fun p => keyOf p == k)))
      | some v => some (v ++ photos.filter (fun p => keyOf p == k)) := by
  induction photos with
  | nil =>
      intro acc k
      cases h : tlLookup acc k <;> simp [h]
  | cons p ps ih =>
      intro acc k
      rw [List.foldl_cons, ih]
      have hstep := timelineStep_lookup 0 acc p k
      by_cases hpk : keyOf p = k
      · rw [if_pos hpk] at hstep
        have hc : ((0 : Int) == 0) = true
            ∨ (((tlLookup acc k).getD []).length : Int) < 0 := Or.inl rfl
        rw [if_pos hc] at hstep
        rw [hstep]
        have hfk : (keyOf p == k) = true := beq_iff_eq.mpr hpk
        cases hacc : tlLookup acc k
        · simp [hacc, List.filter_cons, hfk]
        · simp [hacc, List.filter_cons, hfk]
      · rw [if_neg hpk] at hstep
        rw [hstep]
        have hfk : (keyOf p == k) = false := beq_eq_false_iff_ne.mpr hpk
        simp [List.filter_cons, hfk]

/-- Grouping with a negative `limitPerMonth`: the length test never
passes, so buckets are created for every key encountered but stay at
whatever the accumulator held (empty, from an empty start). -/
theorem timelineOf_neg_lookup (n : Int) (hn : n < 0) (photos : List Photo) :
    ∀ (acc : Timeline) (k : Int × Nat),
    tlLookup (photos.foldl (timelineStep n) acc) k =
      match tlLookup acc k with
      | none =>
          (if (photos.filter (fun p => keyOf p == k)).isEmpty then none
           else some [])
      | some v => some v := by
  induction photos with
  | nil =>
      intro acc k
      cases h : tlLookup acc k <;> simp [h]
  | cons p ps ih =>
      intro acc k
      rw [List.foldl_cons, ih]
      have hstep := timelineStep_lookup n acc p k
      by_cases hpk : keyOf p = k
      · rw [if_pos hpk] at hstep
        have hc : ¬ ((n == 0) = true
            ∨ (((tlLookup acc k).getD []).length : Int) < n) := by
          rintro (h | h)
          · rw [beq_iff_eq] at h
            omega
          · omega
        rw [if_neg hc] at hstep
        rw [hstep]
        have hfk : (keyOf p == k) = true := beq_iff_eq.mpr hpk
        cases hacc : tlLookup acc k
        · simp [hacc, List.filter_cons, hfk]
        · simp [hacc, List.filter_cons, hfk]
      · rw [if_neg hpk] at hstep
        rw [hstep]
        have hfk : (keyOf p == k) = false := beq_eq_false_iff_ne.mpr hpk
        simp [List.filter_cons, hfk]

/-- C10 (confirmed).  In `GetPhotosByTimeline`, `limitPerMonth = 0`
means no truncation: every bucket holds exactly the ordered rows of its
year/month, in full.  Any negative `limitPerMonth` makes the append test
`limitPerMonth == 0 || len(bucket) < limitPerMonth` permanently false, so
every year/month with matching rows is present in the result but its
bucket is empty. -/
theorem c10_limit_zero_vs_negative (db : DBState) (k : Int × Nat) :
    (tlLookup (getPhotosByTimeline db 0) k =
       (if ((db.photos.insertionSort defaultOrder).filter
              (fun p => keyOf p == k)).isEmpty
        then none
        else some ((db.photos.insertionSort defaultOrder).filter
              (fun p => keyOf p == k))))
  ∧ (∀ n : Int, n < 0 →
      tlLookup (getPhotosByTimeline db n) k =
        (if ((db.photos.insertionSort defaultOrder).filter
               (fun p => keyOf p == k)).isEmpty
         then none
         else some [])) := by
  constructor
  · have h := timelineOf_zero_lookup (db.photos.insertionSort defaultOrder) [] k
    simpa [getPhotosByTimeline, timelineOf, tlLookup] using h
  · intro n hn
    have h := timelineOf_neg_lookup n hn (db.photos.insertionSort defaultOrder) [] k
    simpa [getPhotosByTimeline, timelineOf, tlLookup] using h

/-- Two January-2024 photos and one February-2024 photo, none with EXIF. -/
def photoJanA : Photo :=
  { id := 1, filename := "a.jpg", storedPath := "/photos/2024/01/a.jpg",
    uploadDate := ⟨2024, 1, 4⟩, exifDate := none,
    hash := "ha", fileSize := 1, mimeType := "image/jpeg", tags := "" }

def photoJanB : Photo :=
  { id := 2, filename := "b.jpg", storedPath := "/photos/2024/01/b.jpg",
    uploadDate := ⟨2024, 1, 19⟩, exifDate := none,
    hash := "hb", fileSize := 1, mimeType := "image/jpeg", tags := "" }

def photoFeb : Photo :=
  { id := 3, filename := "c.jpg", storedPath := "/photos/2024/02/c.jpg",
    uploadDate := ⟨2024, 2, 0⟩, exifDate := none,
    hash := "hc", fileSize := 1, mimeType := "image/jpeg", tags := "" }

def dbT : DBState := { photos := [photoJanA, photoJanB, photoFeb], nextId := 4 }

/-- Witness for C10 on a three-photo library: with limit 0 the January
2024 bucket holds both January rows (newest first); with limit −1 the
bucket exists but is empty. -/
theorem c10_witness :
    (tlLookup (getPhotosByTimeline dbT 0) ((2024 : Int), 1) =
       (if ((dbT.photos.insertionSort defaultOrder).filter
              (fun p => keyOf p == ((2024 : Int), 1))).isEmpty
        then none
        else some ((dbT.photos.insertionSort defaultOrder).filter
              (fun p => keyOf p == ((2024 : Int), 1)))))
  ∧ ((-1 : Int) < 0)
  ∧ (tlLookup (getPhotosByTimeline dbT (-1)) ((2024 : Int), 1) =
       (if ((dbT.photos.insertionSort defaultOrder).filter
              (fun p => keyOf p == ((2024 : Int), 1))).isEmpty
        then none
        else some []))
  ∧ tlLookup (getPhotosByTimeline dbT 0) ((2024 : Int), 1) = some [photoJanB, photoJanA]
  ∧ tlLookup (getPhotosByTimeline dbT (-1)) ((2024 : Int), 1) = some [] :=
  ⟨(c10_limit_zero_vs_negative dbT ((2024 : Int), 1)).1, by decide,
   (c10_limit_zero_vs_negative dbT ((2024 : Int), 1)).2 (-1) (by decide),
   by decide, by decide⟩

end PhotoManager
